import Mathlib

/-!
Verification of the waypoint-progress tracker and sparse path-following
reward of the maze task (`orbit/maze/tasks/maze/mdp/rewards.py`).

The embedding models the batched tensors of the reward terms as functions
over `Fin n` (one slot per parallel simulation instance).  Coordinates
live in an arbitrary linear ordered additive commutative group `K`
standing in for the real scalars of the host framework; the concrete
witnesses instantiate `K := ℤ`.  The module-level mutable globals
`path_idx` / `maze_path` are explicit state threaded through each call.
Python exceptions (comparison with `None`, tensor index out of range,
reading an undefined name) are modelled with `Except String`.  The
external `torch.norm` primitive is a parameter `nrm` of each definition,
since its implementation lives outside the repository.
-/

namespace OrbitMaze

variable {K : Type} [LinearOrderedAddCommGroup K] {n : ℕ}

/-- First seven components of a root state tensor row: world position
`(x, y, z)` followed by the orientation quaternion `(qw, qx, qy, qz)`. -/
structure Pose (K : Type) where
  x : K
  y : K
  z : K
  qw : K
  qx : K
  qy : K
  qz : K

instance [DecidableEq K] : DecidableEq (Pose K) := fun a b =>
  decidable_of_iff (a.x = b.x ∧ a.y = b.y ∧ a.z = b.z ∧ a.qw = b.qw ∧
    a.qx = b.qx ∧ a.qy = b.qy ∧ a.qz = b.qz) (by cases a; cases b; simp)

/-- The `[:2]` slice of a pose row: its world xy position. -/
def Pose.xy (p : Pose K) : K × K := (p.x, p.y)

/-- The `[3:7]` slice of a pose row: its orientation quaternion. -/
def Pose.quat (p : Pose K) : K × K × K × K := (p.qw, p.qx, p.qy, p.qz)

/-- Scene quantities read and written by `path_point_target`: the
per-instance environment origins, the tracked sphere xy world position,
and the three target marker poses (`target1`, `target2`, `target3`). -/
structure Env (K : Type) (n : ℕ) where
  envOrigins : Fin n → K × K
  spherePos : Fin n → K × K
  target1 : Fin n → Pose K
  target2 : Fin n → Pose K
  target3 : Fin n → Pose K

instance [DecidableEq K] : DecidableEq (Env K n) := fun a b =>
  decidable_of_iff (a.envOrigins = b.envOrigins ∧ a.spherePos = b.spherePos ∧
    a.target1 = b.target1 ∧ a.target2 = b.target2 ∧ a.target3 = b.target3)
    (by cases a; cases b; simp)

instance {α β : Type} [DecidableEq α] [DecidableEq β] : DecidableEq (Except α β) :=
  fun x y =>
    match x, y with
    | .ok a, .ok b =>
      if h : a = b then .isTrue (by rw [h]) else .isFalse (fun hc => h (Except.ok.inj hc))
    | .error a, .error b =>
      if h : a = b then .isTrue (by rw [h]) else .isFalse (fun hc => h (Except.error.inj hc))
    | .ok _, .error _ => .isFalse (fun hc => Except.noConfusion hc)
    | .error _, .ok _ => .isFalse (fun hc => Except.noConfusion hc)

/-- Python indexing of the path tensor `maze_path[k, :]` for a possibly
negative index `k` (a negative index wraps around, as in torch).  The
default value is only exposed when the surrounding code has already
raised an `IndexError`, which the step function models separately. -/
def torchIndex (P : List (K × K)) (k : ℤ) : K × K :=
  if k < 0 then P.getD (k + P.length).toNat (0, 0) else P.getD k.toNat (0, 0)

/-- Whether the index `k` is in the valid torch range `-len P ≤ k < len P`. -/
def torchIndexValid (P : List (K × K)) (k : ℤ) : Bool :=
  decide (-(P.length : ℤ) ≤ k) && decide (k < (P.length : ℤ))

/-- Lazy initialization of the module global `path_idx`
(`rewards.py` lines 43-46 and 79-82): when it is still `None` every
instance starts at the configured start index 2. -/
def lazyInit (path_idx : Option (Fin n → ℤ)) : Fin n → ℤ :=
  match path_idx with
  | none => fun _ => 2
  | some p => p

/-- The masked in-place increment `path_idx[target_reached_ids] += 1`
(`rewards.py` line 61). -/
def maskedAddOne (p : Fin n → ℤ) (mask : Fin n → Bool) : Fin n → ℤ :=
  fun i => if mask i then p i + 1 else p i

/-- The saturating masked assignment `path_idx[path_idx >= idx_max] = idx_max`
(`rewards.py` line 62); note that it clamps every instance, not only the
reached ones. -/
def clampAboveTo (p : Fin n → ℤ) (m : ℤ) : Fin n → ℤ :=
  fun i => if m ≤ p i then m else p i

/-- The advanced integer-tensor assignment `t[ids] = v` used by
`reset_maze_path_idx` (`rewards.py` line 84). -/
def indexFill (p : Fin n → ℤ) (ids : List (Fin n)) (v : ℤ) : Fin n → ℤ :=
  ids.foldl (fun acc j => Function.update acc j v) p

/-- The boolean proximity tensor of `rewards.py` line 48:
`torch.norm(sphere_pos[:, :2] - target1_pos[:, :2], dim=1) < distance_from_target`,
where both positions have had the environment origins subtracted
(lines 37-38). -/
def sparseReward (nrm : K × K → K) (dft : K) (env : Env K n) : Fin n → Bool :=
  fun i =>
    decide (nrm ((env.spherePos i - env.envOrigins i) -
      ((env.target1 i).xy - env.envOrigins i)) < dft)

/-- The marker pose shuffle of `rewards.py` lines 53-58 and 64-70 for the
reached instances: `target1` receives the previous pose of `target2`,
`target2` the previous pose of `target3`, and `target3` keeps its previous
pose except that its xy position becomes `maze_path[path_idx[i]] +
env_origins[i]` at the already-updated index.  Instances outside the
reached mask are untouched (`env_ids=target_reached_ids`). -/
def repositionMarkers (P : List (K × K)) (env : Env K n) (mask : Fin n → Bool)
    (p2 : Fin n → ℤ) : Env K n :=
  { env with
    target1 := fun i => if mask i then env.target2 i else env.target1 i
    target2 := fun i => if mask i then env.target3 i else env.target2 i
    target3 := fun i =>
      if mask i then
        { env.target3 i with
          x := (torchIndex P (p2 i)).1 + (env.envOrigins i).1
          y := (torchIndex P (p2 i)).2 + (env.envOrigins i).2 }
      else env.target3 i }

/-- Result of one call of `path_point_target`: the returned sparse reward
tensor, the module global `path_idx` afterwards, and the scene state with
any marker pose writes applied. -/
structure StepResult (K : Type) (n : ℕ) where
  reward : Fin n → Bool
  pathIdx : Fin n → ℤ
  env : Env K n

instance [DecidableEq K] : DecidableEq (StepResult K n) := fun a b =>
  decidable_of_iff (a.reward = b.reward ∧ a.pathIdx = b.pathIdx ∧ a.env = b.env)
    (by cases a; cases b; simp)

/-- The function `path_point_target` of `rewards.py` lines 22-71.  The
proximity mask is computed, and when no instance reached its target the
function returns it at once (lines 50-51) without touching any state.
Otherwise the reached indices are incremented and every index clamped to
`idx_max` (lines 60-62): when `idx_max` is still the default `None` the
comparison on line 62 raises, and when a reached instance's updated index
falls outside the path tensor the lookup on line 65 raises.  Finally the
three markers are repositioned for the reached subset (lines 68-70). -/
def path_point_target (P : List (K × K)) (nrm : K × K → K) (dft : K)
    (idx_max : Option ℤ) (env : Env K n) (path_idx : Option (Fin n → ℤ)) :
    Except String (StepResult K n) :=
  if ∀ i, sparseReward nrm dft env i = false then
    .ok ⟨sparseReward nrm dft env, lazyInit path_idx, env⟩
  else
    match idx_max with
    | none => .error "TypeError: ge not supported between Tensor and NoneType"
    | some m =>
      if ∀ i, sparseReward nrm dft env i = true →
          torchIndexValid P (clampAboveTo (maskedAddOne (lazyInit path_idx)
            (sparseReward nrm dft env)) m i) = true then
        .ok ⟨sparseReward nrm dft env,
          clampAboveTo (maskedAddOne (lazyInit path_idx) (sparseReward nrm dft env)) m,
          repositionMarkers P env (sparseReward nrm dft env)
            (clampAboveTo (maskedAddOne (lazyInit path_idx) (sparseReward nrm dft env)) m)⟩
      else .error "IndexError: index out of bounds of maze_path"

/-- The function `reset_maze_path_idx` of `rewards.py` lines 74-85: after
lazy initialization, the indices of the instances in `env_ids` are
overwritten with the start index 2 and everything else is untouched. -/
def reset_maze_path_idx (env_ids : List (Fin n)) (path_idx : Option (Fin n → ℤ)) :
    Fin n → ℤ :=
  indexFill (lazyInit path_idx) env_ids 2

/-- The `target_cfg` argument of the distance rewards: either a scene
entity (whose batched world position is read from the scene) or a plain
dictionary with optional entries for the x and y coordinates. -/
inductive TargetCfg (K : Type) (n : ℕ) where
  | entity (pos : Fin n → K × K)
  | dict (x y : Option K)

/-- The target position computed by `root_xy_sparse_target`
(`rewards.py` lines 170-177): the entity branch subtracts the environment
origins, the dictionary branch reads each coordinate with
`target_cfg.get(key, 0.0)` and broadcasts it over the batch. -/
def targetPosOf (tc : TargetCfg K n) (origins : Fin n → K × K) : Fin n → K × K :=
  match tc with
  | .entity pos => fun i => pos i - origins i
  | .dict x y => fun _ => (x.getD 0, y.getD 0)

/-- The function `root_xy_sparse_target` of `rewards.py` lines 157-186.
The proximity test is computed against the target position, then gated on
lines 183-184 by `idx * torch.ones_like(path_idx) == path_idx`: reading
the global `path_idx` while it is still `None` raises inside
`torch.ones_like` (the function performs no lazy initialization), and a
default `idx` of `None` raises in the multiplication. -/
def root_xy_sparse_target (nrm : K × K → K) (dft : K) (idx : Option ℤ)
    (tc : TargetCfg K n) (origins spherePos : Fin n → K × K)
    (path_idx : Option (Fin n → ℤ)) : Except String (Fin n → Bool) :=
  let target_pos := targetPosOf tc origins
  let root_pos := fun i => spherePos i - origins i
  let xy := fun i => decide (nrm (root_pos i - target_pos i) < dft)
  match path_idx with
  | none => .error "TypeError: ones_like expected Tensor, got NoneType"
  | some p =>
    match idx with
    | none => .error "TypeError: unsupported operand NoneType for mul"
    | some k => .ok fun i => xy i && decide (p i = k)

/-- The function `root_xypos_target` of `rewards.py` lines 88-103.  The
entity branch returns the batched `LNorm` distance between the tracked
object and the target in the environment frame.  The dictionary branch on
line 98 evaluates `target.get(key, 0.0)` where the local name `target`
was never assigned, so every dictionary call raises before producing a
target position. -/
def root_xypos_target (nrmP : ℤ → K × K → K) (LNorm : ℤ) (tc : TargetCfg K n)
    (origins rootPosW : Fin n → K × K) : Except String (Fin n → K) :=
  match tc with
  | .entity pos =>
    let target_pos := fun i => pos i - origins i
    let root_pos := fun i => rootPosW i - origins i
    .ok fun i => nrmP LNorm (root_pos i - target_pos i)
  | .dict _ _ => .error "NameError: name target is not defined"

/-! ## Characterization of a successful `path_point_target` call -/

/-- A successful call of `path_point_target` either took the early return
(no instance within threshold, nothing mutated) or the advance-and-clamp
branch (some instance reached, indices incremented then clamped, markers
repositioned for the reached subset). -/
theorem path_point_target_ok_cases {P : List (K × K)} {nrm : K × K → K}
    {dft : K} {idx_max : Option ℤ} {env : Env K n} {path_idx : Option (Fin n → ℤ)}
    {r : StepResult K n}
    (hstep : path_point_target P nrm dft idx_max env path_idx = .ok r) :
    r.reward = sparseReward nrm dft env ∧
      ((∀ i, sparseReward nrm dft env i = false) ∧
          r.pathIdx = lazyInit path_idx ∧ r.env = env ∨
        ¬(∀ i, sparseReward nrm dft env i = false) ∧
          ∃ m, idx_max = some m ∧
            r.pathIdx = clampAboveTo (maskedAddOne (lazyInit path_idx)
              (sparseReward nrm dft env)) m ∧
            r.env = repositionMarkers P env (sparseReward nrm dft env) r.pathIdx) := by
  unfold path_point_target at hstep
  split at hstep
  · cases hstep
    exact ⟨rfl, Or.inl ⟨by assumption, rfl, rfl⟩⟩
  · split at hstep
    · exact absurd hstep (by simp)
    · split at hstep
      · cases hstep
        exact ⟨rfl, Or.inr ⟨by assumption, _, rfl, rfl, rfl⟩⟩
      · exact absurd hstep (by simp)

/-! ## Concrete scenarios used by witnesses and counterexamples -/

/-- A four-waypoint path table, as in the spec example scenarios. -/
def Pw : List (ℤ × ℤ) := [(0, 0), (1, 0), (2, 0), (3, 0)]

/-- A concrete instantiation of the external norm primitive. -/
def nrmw : ℤ × ℤ → ℤ := fun v => v.1 * v.1 + v.2 * v.2

/-- A pose at xy position `(x, y)`, height zero, identity quaternion. -/
def mkPose (x y : ℤ) : Pose ℤ := ⟨x, y, 0, 1, 0, 0, 0⟩

/-- Two instances: instance 0 (origin `(0,0)`) has its sphere on its
`target1`, instance 1 (origin `(100,100)`) is far from its `target1`.
The markers of each instance hold the three consecutive path entries
ending at the current progress index 2. -/
def envw : Env ℤ 2 :=
  { envOrigins := ![(0, 0), (100, 100)]
    spherePos := ![(0, 0), (0, 0)]
    target1 := ![mkPose 0 0, mkPose 100 100]
    target2 := ![mkPose 1 0, mkPose 101 100]
    target3 := ![mkPose 2 0, mkPose 102 100] }

/-- Both instances start at the lazily-initialized index 2. -/
def pw : Fin 2 → ℤ := fun _ => 2

/-- The result of the scenario-`envw` tick with `idx_max = 3`: instance 0
advances to index 3 and its markers shift one waypoint forward, instance 1
is untouched. -/
def rww : StepResult ℤ 2 :=
  { reward := ![true, false]
    pathIdx := ![3, 2]
    env :=
      { envOrigins := ![(0, 0), (100, 100)]
        spherePos := ![(0, 0), (0, 0)]
        target1 := ![mkPose 1 0, mkPose 100 100]
        target2 := ![mkPose 2 0, mkPose 101 100]
        target3 := ![mkPose 3 0, mkPose 102 100] } }

/-- Concrete evaluation of the scenario-`envw` tick. -/
theorem stepW_eq : path_point_target Pw nrmw 1 (some 3) envw (some pw) = .ok rww := by
  decide

/-- One instance whose markers hold the window `P[0], P[1], P[2]` claimed
by the spec to start at the current index 0, with the sphere on `target1`. -/
def envV : Env ℤ 1 :=
  { envOrigins := ![(0, 0)]
    spherePos := ![(0, 0)]
    target1 := ![mkPose 0 0]
    target2 := ![mkPose 1 0]
    target3 := ![mkPose 2 0] }

/-- Instance of scenario `envV` starts at index 0. -/
def pV : Fin 1 → ℤ := fun _ => 0

/-- The returned reward entry of a call result at instance `i`, when the
call returned at all. -/
def okRewardAt (x : Except String (StepResult K n)) (i : Fin n) : Option Bool :=
  match x with
  | .ok r => some (r.reward i)
  | .error _ => none

/-- The path index of a call result at instance `i`, when the call
returned at all. -/
def okIdxAt (x : Except String (StepResult K n)) (i : Fin n) : Option ℤ :=
  match x with
  | .ok r => some (r.pathIdx i)
  | .error _ => none

/-- The xy position of `target1` at instance `i` after a call, when the
call returned at all. -/
def okT1xy (x : Except String (StepResult K n)) (i : Fin n) : Option (K × K) :=
  match x with
  | .ok r => some ((r.env.target1 i).xy)
  | .error _ => none

/-- The xy position of `target3` at instance `i` after a call, when the
call returned at all. -/
def okT3xy (x : Except String (StepResult K n)) (i : Fin n) : Option (K × K) :=
  match x with
  | .ok r => some ((r.env.target3 i).xy)
  | .error _ => none

/-! ## C1: single-step advance of the path index -/

/-- C1 (amended): in a tick of `path_point_target` in which some instance
is reached, a reached instance's path index becomes `min(index + 1, idx_max)`
and a non-reached instance's path index becomes `min(index, idx_max)` (the
clamp on line 62 applies to every instance); in a tick in which no
instance is reached, every path index is unchanged. -/
theorem C1_path_idx_update {P : List (K × K)} {nrm : K × K → K} {dft : K}
    {m : ℤ} {env : Env K n} {p : Fin n → ℤ} {r : StepResult K n}
    (hstep : path_point_target P nrm dft (some m) env (some p) = .ok r) (i : Fin n) :
    (r.reward i = true → r.pathIdx i = min (p i + 1) m) ∧
    (r.reward i = false → (∃ j, r.reward j = true) → r.pathIdx i = min (p i) m) ∧
    (r.reward i = false → (∀ j, r.reward j = false) → r.pathIdx i = p i) := by
  obtain ⟨hrw, hcases⟩ := path_point_target_ok_cases hstep
  rcases hcases with ⟨hall, hidx, -⟩ | ⟨hnall, m', hm', hidx, -⟩
  · refine ⟨fun hi => ?_, fun _ hex => ?_, fun _ _ => ?_⟩
    · rw [hrw, hall i] at hi
      cases hi
    · obtain ⟨j, hj⟩ := hex
      rw [hrw, hall j] at hj
      cases hj
    · rw [hidx]
      rfl
  · obtain rfl : m = m' := Option.some.inj hm'
    refine ⟨fun hi => ?_, fun hi _ => ?_, fun hi hall2 => ?_⟩
    · rw [hrw] at hi
      rw [hidx]
      simp [clampAboveTo, maskedAddOne, lazyInit, hi]
      split <;> omega
    · rw [hrw] at hi
      rw [hidx]
      simp [clampAboveTo, maskedAddOne, lazyInit, hi]
      split <;> omega
    · exact absurd (fun j => by rw [← hrw]; exact hall2 j) hnall

/-- C1 counterexample: with `idx_max = 1`, instance 1 at index 2 is not
reached in a tick where instance 0 is reached, yet its index changes from
2 to 1 — the claim that a non-reached instance's index is unchanged by the
call is false. -/
theorem C1_counterexample :
    ¬(okRewardAt (path_point_target Pw nrmw 1 (some 1) envw (some pw)) 1 = some false →
      okIdxAt (path_point_target Pw nrmw 1 (some 1) envw (some pw)) 1 = some (pw 1)) := by
  decide

/-- C1 witness: in the concrete scenario tick, reached instance 0 advances
from index 2 to `min (2 + 1) 3 = 3`. -/
theorem C1_witness : rww.pathIdx 0 = min (pw 0 + 1) 3 :=
  (C1_path_idx_update stepW_eq 0).1 (by decide)

/-! ## C3: the marker pose shuffle for reached instances -/

/-- C3: when `path_point_target` repositions markers, a reached instance's
`target1` receives the previous pose of `target2`, `target2` receives the
previous pose of `target3`, and `target3` receives a pose whose xy
position is the path entry at the new (post-advance) index plus the
instance's origin offset, with orientation unchanged from `target3`'s
previous pose; the pose of every non-reached instance is untouched. -/
theorem C3_marker_shuffle {P : List (K × K)} {nrm : K × K → K} {dft : K}
    {idx_max : Option ℤ} {env : Env K n} {path_idx : Option (Fin n → ℤ)}
    {r : StepResult K n}
    (hstep : path_point_target P nrm dft idx_max env path_idx = .ok r) (i : Fin n) :
    (r.reward i = true →
      r.env.target1 i = env.target2 i ∧
      r.env.target2 i = env.target3 i ∧
      (r.env.target3 i).xy = torchIndex P (r.pathIdx i) + env.envOrigins i ∧
      (r.env.target3 i).quat = (env.target3 i).quat) ∧
    (r.reward i = false →
      r.env.target1 i = env.target1 i ∧ r.env.target2 i = env.target2 i ∧
      r.env.target3 i = env.target3 i) := by
  obtain ⟨hrw, hcases⟩ := path_point_target_ok_cases hstep
  rcases hcases with ⟨hall, -, henv⟩ | ⟨-, m', -, -, henv⟩
  · constructor
    · intro hi
      rw [hrw, hall i] at hi
      cases hi
    · intro _
      rw [henv]
      exact ⟨rfl, rfl, rfl⟩
  · constructor
    · intro hi
      rw [hrw] at hi
      rw [henv]
      refine ⟨?_, ?_, ?_, ?_⟩ <;>
        simp [repositionMarkers, hi, Pose.xy, Pose.quat, Prod.ext_iff]
    · intro hi
      rw [hrw] at hi
      rw [henv]
      exact ⟨by simp [repositionMarkers, hi], by simp [repositionMarkers, hi],
        by simp [repositionMarkers, hi]⟩

/-- C3 witness: the concrete scenario tick realises the shuffle at reached
instance 0. -/
theorem C3_witness :
    rww.env.target1 0 = envw.target2 0 ∧ rww.env.target2 0 = envw.target3 0 ∧
    (rww.env.target3 0).xy = torchIndex Pw (rww.pathIdx 0) + envw.envOrigins 0 ∧
    (rww.env.target3 0).quat = (envw.target3 0).quat :=
  (C3_marker_shuffle stepW_eq 0).1 (by decide)

/-! ## C2: which window of path entries the three markers hold -/

/-- The marker window invariant maintained by the code: the three markers
of instance `i` hold three consecutive (clamped at `m`) path entries
*ending* at the instance's current progress index — `target3` carries
`PathTable[index]`, and `target1`/`target2` carry the two predecessors in
the clamped index chain, each translated by the instance origin. -/
def windowInv (P : List (K × K)) (m : ℤ) (env : Env K n) (p : Fin n → ℤ)
    (i : Fin n) : Prop :=
  ∃ j2 j1 : ℤ, 0 ≤ j2 ∧ j1 = min (j2 + 1) m ∧ p i = min (j1 + 1) m ∧
    (env.target1 i).xy = torchIndex P j2 + env.envOrigins i ∧
    (env.target2 i).xy = torchIndex P j1 + env.envOrigins i ∧
    (env.target3 i).xy = torchIndex P (p i) + env.envOrigins i

/-- C2 counterexample: a reached instance whose markers held
`P[0], P[1], P[2]` at index 0 advances to index 1, after which `target3`
holds `P[1] = (1,0)` and not the entry `P[1+2] = (3,0)` that the claimed
leading window (`target2`/`target3` holding the next two consecutive
entries after the current index) would require. -/
theorem C2_counterexample :
    okRewardAt (path_point_target Pw nrmw 1 (some 3) envV (some pV)) 0 = some true ∧
    okIdxAt (path_point_target Pw nrmw 1 (some 3) envV (some pV)) 0 = some 1 ∧
    okT3xy (path_point_target Pw nrmw 1 (some 3) envV (some pV)) 0 = some (1, 0) ∧
    torchIndex Pw (1 + 2) + envV.envOrigins 0 ≠ ((1 : ℤ), (0 : ℤ)) := by
  decide

/-- C2 (amended): after any reposition, `target3` holds the path entry at
the instance's current (post-advance) progress index translated into the
instance frame, and the three markers hold three consecutive (clamped at
the path end) path entries ending at — not starting at — the current
index: the trailing window invariant is preserved by every successful
call of `path_point_target`. -/
theorem C2_window_invariant {P : List (K × K)} {nrm : K × K → K} {dft : K}
    {m : ℤ} {env : Env K n} {p : Fin n → ℤ} {r : StepResult K n}
    (hm : 0 ≤ m) (_hL : m < (P.length : ℤ))
    (hstep : path_point_target P nrm dft (some m) env (some p) = .ok r)
    (hinv : ∀ i, windowInv P m env p i) (i : Fin n) :
    windowInv P m r.env r.pathIdx i := by
  obtain ⟨hrw, hcases⟩ := path_point_target_ok_cases hstep
  obtain ⟨j2, j1, hj2, hj1, hpi, h1, h2, h3⟩ := hinv i
  rcases hcases with ⟨-, hidx, henv⟩ | ⟨-, m', hm', hidx, henv⟩
  · rw [henv, hidx]
    exact ⟨j2, j1, hj2, hj1, hpi, h1, h2, h3⟩
  · obtain rfl : m = m' := Option.some.inj hm'
    cases hmask : sparseReward nrm dft env i with
    | true =>
      have hNew : r.pathIdx i = min (p i + 1) m := by
        rw [hidx]
        simp [clampAboveTo, maskedAddOne, lazyInit, hmask]
        split <;> omega
      refine ⟨j1, p i, by omega, hpi, hNew, ?_, ?_, ?_⟩
      · rw [henv]
        simpa [repositionMarkers, hmask] using h2
      · rw [henv]
        simpa [repositionMarkers, hmask] using h3
      · rw [henv]
        simp [repositionMarkers, hmask, Pose.xy, Prod.ext_iff, Prod.fst_add, Prod.snd_add]
    | false =>
      have hSame : r.pathIdx i = p i := by
        rw [hidx]
        simp [clampAboveTo, maskedAddOne, lazyInit, hmask]
        omega
      refine ⟨j2, j1, hj2, hj1, by rw [hSame]; exact hpi, ?_, ?_, ?_⟩
      · rw [henv]
        simpa [repositionMarkers, hmask] using h1
      · rw [henv]
        simpa [repositionMarkers, hmask] using h2
      · rw [henv, hSame]
        simpa [repositionMarkers, hmask] using h3

/-- C2 witness: the trailing window invariant holds after the concrete
scenario tick, whose pre-state satisfies it at every instance. -/
theorem C2_witness : windowInv Pw 3 rww.env rww.pathIdx 0 :=
  C2_window_invariant (by decide) (by decide) stepW_eq
    (fun i => ⟨0, 1, by decide, by decide, by revert i; decide,
      by revert i; decide, by revert i; decide, by revert i; decide⟩) 0

/-! ## C4: scoping of the episode reset -/

/-- Pointwise effect of the masked assignment `t[ids] = v`. -/
theorem indexFill_apply (p : Fin n → ℤ) (ids : List (Fin n)) (v : ℤ) (i : Fin n) :
    indexFill p ids v i = if i ∈ ids then v else p i := by
  induction ids generalizing p with
  | nil => simp [indexFill]
  | cons j rest ih =>
    simp only [indexFill, List.foldl] at ih ⊢
    rw [ih]
    by_cases hij : i ∈ rest
    · simp [hij]
    · by_cases hji : i = j
      · subst hji
        simp [hij, Function.update_apply]
      · simp [hij, hji, Function.update_apply]

/-- C4: `reset_maze_path_idx` sets the path index of every instance in
the given subset to the configured start index 2, leaves the path index
of every instance outside the subset unchanged, and is a no-op on the
whole index array for the empty subset. -/
theorem C4_reset_scoping (p : Fin n → ℤ) (S : List (Fin n)) :
    (∀ i, i ∈ S → reset_maze_path_idx S (some p) i = 2) ∧
    (∀ i, i ∉ S → reset_maze_path_idx S (some p) i = p i) ∧
    reset_maze_path_idx ([] : List (Fin n)) (some p) = p := by
  refine ⟨fun i hi => ?_, fun i hi => ?_, rfl⟩
  · simp [reset_maze_path_idx, lazyInit, indexFill_apply, hi]
  · simp [reset_maze_path_idx, lazyInit, indexFill_apply, hi]

/-- C4 witness: resetting subset `{0}` of two instances sets index 0 to 2
and leaves index 1 untouched. -/
theorem C4_witness :
    reset_maze_path_idx [(0 : Fin 2)] (some pw) 0 = 2 ∧
    reset_maze_path_idx [(0 : Fin 2)] (some pw) 1 = pw 1 :=
  ⟨(C4_reset_scoping pw [0]).1 0 (by decide), (C4_reset_scoping pw [0]).2.1 1 (by decide)⟩

/-! ## C5: a tick with no reached instance is a complete no-op -/

/-- C5: when no instance is within the proximity threshold of its current
target, `path_point_target` returns the all-false reward array and leaves
the progress-index array and every marker pose unchanged. -/
theorem C5_noop_tick {P : List (K × K)} {nrm : K × K → K} {dft : K}
    {idx_max : Option ℤ} {env : Env K n} {p : Fin n → ℤ}
    (h : ∀ i, ¬nrm ((env.spherePos i - env.envOrigins i) -
      ((env.target1 i).xy - env.envOrigins i)) < dft) :
    path_point_target P nrm dft idx_max env (some p) =
      .ok ⟨fun _ => false, p, env⟩ := by
  have hall : ∀ i, sparseReward nrm dft env i = false := by
    intro i
    exact decide_eq_false (h i)
  unfold path_point_target
  rw [if_pos hall, funext hall]
  rfl

/-- One instance far away from its current target. -/
def envN : Env ℤ 1 :=
  { envOrigins := ![(0, 0)]
    spherePos := ![(50, 50)]
    target1 := ![mkPose 0 0]
    target2 := ![mkPose 1 0]
    target3 := ![mkPose 2 0] }

/-- C5 witness: the far-away concrete scenario returns all-false and
leaves state and markers bitwise unchanged. -/
theorem C5_witness :
    path_point_target Pw nrmw 1 (some 3) envN (some pV) = .ok ⟨fun _ => false, pV, envN⟩ :=
  C5_noop_tick (by decide)

/-! ## C6: monotone, bounded progress across a sequence of ticks -/

/-- One call of `path_point_target`, projected to the updated index state. -/
def stepIdx (P : List (K × K)) (nrm : K × K → K) (dft : K) (m : ℤ)
    (env : Env K n) (p : Fin n → ℤ) : Except String (Fin n → ℤ) :=
  (path_point_target P nrm dft (some m) env (some p)).map StepResult.pathIdx

/-- A sequence of `path_point_target` calls with fixed `idx_max` and no
reset in between, threading the index state; the per-tick scene inputs
are arbitrary. -/
def runIdx (P : List (K × K)) (nrm : K × K → K) (dft : K) (m : ℤ) :
    List (Env K n) → (Fin n → ℤ) → Except String (Fin n → ℤ)
  | [], p => .ok p
  | e :: rest, p =>
    match stepIdx P nrm dft m e p with
    | .error s => .error s
    | .ok q => runIdx P nrm dft m rest q

/-- A single successful call never decreases any index and keeps every
index inside `[0, m]` whenever it started inside `[0, m]`. -/
theorem stepIdx_bounds {P : List (K × K)} {nrm : K × K → K} {dft : K}
    {m : ℤ} {e : Env K n} {p q : Fin n → ℤ}
    (hp : ∀ i, 0 ≤ p i ∧ p i ≤ m) (h : stepIdx P nrm dft m e p = .ok q) :
    (∀ i, p i ≤ q i) ∧ (∀ i, 0 ≤ q i ∧ q i ≤ m) := by
  unfold stepIdx at h
  cases hs : path_point_target P nrm dft (some m) e (some p) with
  | error s =>
    rw [hs] at h
    cases h
  | ok r =>
    rw [hs] at h
    obtain rfl : r.pathIdx = q := by
      cases h
      rfl
    obtain ⟨-, hcases⟩ := path_point_target_ok_cases hs
    rcases hcases with ⟨-, hidx, -⟩ | ⟨-, m', hm', hidx, -⟩
    · rw [hidx]
      exact ⟨fun i => le_refl _, hp⟩
    · obtain rfl : m = m' := Option.some.inj hm'
      refine ⟨fun i => ?_, fun i => ?_⟩ <;>
        · have hpi := hp i
          rw [hidx]
          simp only [clampAboveTo, maskedAddOne, lazyInit]
          cases hmask : sparseReward nrm dft e i <;>
            · simp only [Bool.false_eq_true, if_false]
              split <;> omega

/-- Running any sequence of successful calls keeps every index inside
`[0, m]`. -/
theorem runIdx_bounds {P : List (K × K)} {nrm : K × K → K} {dft : K}
    {m : ℤ} (envs : List (Env K n)) (p q : Fin n → ℤ)
    (hp : ∀ i, 0 ≤ p i ∧ p i ≤ m) (h : runIdx P nrm dft m envs p = .ok q) :
    ∀ i, 0 ≤ q i ∧ q i ≤ m := by
  induction envs generalizing p with
  | nil =>
    obtain rfl : p = q := by
      cases h
      rfl
    exact hp
  | cons e rest ih =>
    unfold runIdx at h
    cases hs : stepIdx P nrm dft m e p with
    | error s =>
      rw [hs] at h
      cases h
    | ok q1 =>
      rw [hs] at h
      exact ih q1 ((stepIdx_bounds hp hs).2) h

/-- C6: along every sequence of `path_point_target` calls with a fixed
integer `idx_max` and no reset in between, starting from an index array
inside `[0, idx_max]`, the index of every instance never decreases from
one call to the next and stays inside `[0, idx_max]` after every call. -/
theorem C6_monotone_bounded {P : List (K × K)} {nrm : K × K → K} {dft : K}
    {m : ℤ} {p : Fin n → ℤ}
    (hp : ∀ i, 0 ≤ p i ∧ p i ≤ m) (pre : List (Env K n)) (e : Env K n)
    {q q' : Fin n → ℤ}
    (hpre : runIdx P nrm dft m pre p = .ok q)
    (hstep : stepIdx P nrm dft m e q = .ok q') :
    (∀ i, q i ≤ q' i) ∧ (∀ i, 0 ≤ q' i ∧ q' i ≤ m) := by
  have hq := runIdx_bounds pre p q hp hpre
  exact stepIdx_bounds hq hstep

/-- C6 witness: one concrete call out of the in-bounds start state is
monotone at instance 0 and keeps instance 1 inside the bounds. -/
theorem C6_witness :
    pw 0 ≤ rww.pathIdx 0 ∧ (0 ≤ rww.pathIdx 1 ∧ rww.pathIdx 1 ≤ 3) := by
  have hstep : stepIdx Pw nrmw 1 3 envw pw = .ok rww.pathIdx := by decide
  exact ⟨(C6_monotone_bounded (by decide) [] envw rfl hstep).1 0,
    (C6_monotone_bounded (by decide) [] envw rfl hstep).2 1⟩

/-! ## C7: stage gating of the sparse reward -/

/-- C7: the sparse reward of `root_xy_sparse_target` is true at an
instance exactly when the tracked object is strictly within the distance
threshold of the target position and the instance's progress index equals
the caller-supplied stage identifier; when the index differs from the
stage identifier the reward is false regardless of proximity. -/
theorem C7_sparse_gating {nrm : K × K → K} {dft : K} {k : ℤ}
    {tc : TargetCfg K n} {origins spherePos : Fin n → K × K} {p : Fin n → ℤ}
    {r : Fin n → Bool}
    (hr : root_xy_sparse_target nrm dft (some k) tc origins spherePos (some p) = .ok r)
    (i : Fin n) :
    (r i = true ↔
      nrm ((spherePos i - origins i) - targetPosOf tc origins i) < dft ∧ p i = k) ∧
    (p i ≠ k → r i = false) := by
  injection hr with hr
  subst hr
  refine ⟨?_, fun hne => ?_⟩
  · simp [Bool.and_eq_true, decide_eq_true_eq]
  · simp [hne]

/-- A concrete entity target sitting on each instance's origin. -/
def tcw : TargetCfg ℤ 2 := .entity ![(0, 0), (100, 100)]

/-- Expected gated sparse reward in the concrete scenario. -/
def rsw : Fin 2 → Bool := ![true, false]

/-- C7 witness: instance 0 is within threshold and at the expected stage
index 2, so its gated sparse reward is true. -/
theorem C7_witness : rsw 0 = true := by
  have hr : root_xy_sparse_target nrmw 1 (some 2) tcw envw.envOrigins envw.spherePos
      (some pw) = .ok rsw := by decide
  exact ((C7_sparse_gating hr 0).1).mpr ⟨by decide, by decide⟩

/-! ## C8: lazy initialization of the progress state -/

/-- C8 (amended): `path_point_target` and `reset_maze_path_idx` read the
Progress State through lazy initialization — calling them before any
Progress State exists behaves exactly as if it had been created with
every instance at the start index 2 — but `root_xy_sparse_target` reads
the Progress State without initializing it and raises when it does not
exist yet. -/
theorem C8_lazy_init {P : List (K × K)} {nrm nrm2 : K × K → K} {dft dft2 : K}
    {idx_max : Option ℤ} {env : Env K n} (S : List (Fin n)) (k : Option ℤ)
    (tc : TargetCfg K n) (origins spherePos : Fin n → K × K) :
    path_point_target P nrm dft idx_max env none =
      path_point_target P nrm dft idx_max env (some fun _ => 2) ∧
    reset_maze_path_idx S (none : Option (Fin n → ℤ)) =
      reset_maze_path_idx S (some fun _ => 2) ∧
    root_xy_sparse_target nrm2 dft2 k tc origins spherePos none =
      .error "TypeError: ones_like expected Tensor, got NoneType" :=
  ⟨rfl, rfl, rfl⟩

/-- C8 counterexample: `root_xy_sparse_target` reads the Progress State
and raises when invoked before any Progress State exists, so reading the
Progress State before any tick or reset is not always error-free. -/
theorem C8_counterexample :
    root_xy_sparse_target nrmw 1 (some 2) tcw envw.envOrigins envw.spherePos none =
      .error "TypeError: ones_like expected Tensor, got NoneType" := rfl

/-! ## C9: dictionary targets with missing coordinate keys -/

/-- C9: `root_xy_sparse_target` with a dictionary target missing the
`y` key falls back to the default 0 and returns a result, but
`root_xypos_target` with the same dictionary raises a `NameError` (its
dictionary branch reads the unassigned local name `target` instead of
`target_cfg` on line 98), contradicting the claimed fallback. -/
theorem C9_dict_fallback_bug :
    root_xy_sparse_target nrmw 1 (some 2) (.dict (some 1) none) envw.envOrigins
      envw.spherePos (some pw) = .ok ![false, false] ∧
    root_xypos_target (fun _ v => nrmw v) 1 (.dict (some 1) none) envw.envOrigins
      envw.spherePos = .error "NameError: name target is not defined" := by
  exact ⟨by decide, rfl⟩

/-! ## C10: a missing idx_max aborts the advance-and-clamp branch -/

/-- C10: when `path_point_target` is called with its default `idx_max` of
`None` and at least one instance is within the proximity threshold, the
call raises at the clamp comparison of line 62 instead of returning, so a
supplied integer `idx_max` is a precondition for the advance-and-clamp
branch to complete. -/
theorem C10_none_idx_max_raises {P : List (K × K)} {nrm : K × K → K} {dft : K}
    {env : Env K n} {path_idx : Option (Fin n → ℤ)}
    (h : ∃ i, nrm ((env.spherePos i - env.envOrigins i) -
      ((env.target1 i).xy - env.envOrigins i)) < dft) :
    path_point_target P nrm dft none env path_idx =
      .error "TypeError: ge not supported between Tensor and NoneType" := by
  obtain ⟨i, hi⟩ := h
  have hne : ¬∀ j, sparseReward nrm dft env j = false := by
    intro hall
    have h2 := hall i
    simp only [sparseReward, decide_eq_false_iff_not] at h2
    exact h2 hi
  unfold path_point_target
  rw [if_neg hne]

/-- C10 witness: the concrete scenario with a reached instance and the
default `idx_max` raises. -/
theorem C10_witness :
    path_point_target Pw nrmw 1 none envw (some pw) =
      .error "TypeError: ge not supported between Tensor and NoneType" :=
  C10_none_idx_max_raises ⟨0, by decide⟩

end OrbitMaze
